import Mathlib

/-!
Verification development for a transparent HTTP reverse proxy for JSON-RPC
traffic (single source file `src/index.ts`).  The proxy forwards every
request to a fixed upstream, intercepts the outgoing response stream by
overriding `res.write` / `res.end`, buffers the chunks, gunzips and
JSON-parses the body in `handleResponse`, and emits exactly one log entry
per completed request (one log file plus one console block).

The embedding below mirrors the source line by line.  External collaborators
(zlib's `gunzipSync`, Node's lossy UTF-8 decode `Buffer.toString("utf8")`,
`JSON.parse`, the wall clock, `uuidv4`) are modelled as explicit oracle
parameters, so every theorem is quantified over all of their behaviours.
JavaScript values that the code inspects for truthiness are modelled by a
`Json` type together with the JS truthiness predicate.
-/

namespace Proxy

/-- Byte buffers (Node `Buffer`) as lists of byte values. -/
abbrev ByteBuf := List Nat

/-- Result of `JSON.parse`: a JavaScript JSON value.  Numbers are modelled as
integers, which suffices for every claim considered here. -/
inductive Json where
  | null
  | bool (b : Bool)
  | num (n : Int)
  | str (s : String)
  | arr (elems : List Json)
  | obj (fields : List (String × Json))
deriving Repr

/-- JavaScript truthiness of a JSON value: `null`, `false`, `0` and `""` are
falsy; every other value (objects and arrays included, even empty ones) is
truthy.  This is what the source's `x || y` and `x ? a : b` test. -/
def Json.truthy : Json → Bool
  | .null => false
  | .bool b => b
  | .num n => n != 0
  | .str s => s != ""
  | .arr _ => true
  | .obj _ => true

/-- A value stored in Node's outgoing-header map (`res.getHeaders()` yields
`string | number | string[]` values). -/
inductive HVal where
  | hstr (s : String)
  | hnum (n : Int)
  | harr (elems : List String)
deriving Repr, DecidableEq

/-- Whether a header value is a string (`.toLowerCase()` exists only then). -/
def HVal.isStringVal : HVal → Bool
  | .hstr _ => true
  | _ => false

/-- A header map, keys already lower-cased as Node's `getHeaders()` returns
them. -/
abbrev Headers := List (String × HVal)

/-- Property lookup `headers[k]`; `none` plays the role of `undefined`. -/
def getHeader (hs : Headers) (k : String) : Option HVal :=
  (hs.find? (fun p => p.1 == k)).map (fun p => p.2)

/-- The decode result of `handleResponse`: `text` is the decoded body,
`json` the parsed structure or the absence marker (the source stores
JavaScript `null`, modelled here as `none`). -/
structure CapturedResponse where
  text : String
  json : Option Json
deriving Repr

/-- JavaScript's `String.prototype.toLowerCase`, restricted to the ASCII
mapping (all the header values the code compares against are ASCII). -/
def toLowerJs (s : String) : String := String.mk (s.data.map Char.toLower)

/-- Embedding of line 124, `headers["content-encoding"]?.toLowerCase()`.
An absent header gives `undefined` (no error thanks to `?.`); a string value
is lower-cased; a non-string value makes `.toLowerCase()` throw a
`TypeError`, modelled as `.error ()` — the only statement inside the outer
`try` of `handleResponse` that can throw. -/
def contentEncodingLower (hs : Headers) : Except Unit (Option String) :=
  match getHeader hs "content-encoding" with
  | none => .ok none
  | some (.hstr s) => .ok (some (toLowerJs s))
  | some _ => .error ()

/-- The buffer after the optional gzip step: when the lower-cased
content-encoding is exactly "gzip" and decompression succeeds the
decompressed bytes are used, on decompression failure the original bytes
are kept, and without the gzip encoding the buffer passes through. -/
def effectiveBuffer (gunzip : ByteBuf → Option ByteBuf) (buffer : ByteBuf)
    (ce : Option String) : ByteBuf :=
  if ce = some "gzip" then (gunzip buffer).getD buffer else buffer

/-- Embedding of `handleResponse` (lines 121–152).  Oracles: `gunzip` models
`zlib.gunzipSync` (`none` = it throws), `utf8` models the total, lossy
`Buffer.toString("utf8")`, and `jsonParse` models `JSON.parse` (`none` = it
throws).  The second component collects the `console.error` diagnostics the
function emits: the warning of line 132 and the error message of line 149.
The outer catch turns the one throwing statement (a non-string
content-encoding value, see `contentEncodingLower`) into the fallback
result `{text: "Error processing response", json: null}`. -/
def handleResponse (gunzip : ByteBuf → Option ByteBuf)
    (utf8 : ByteBuf → String) (jsonParse : String → Option Json)
    (buffer : ByteBuf) (hs : Headers) : CapturedResponse × List String :=
  match contentEncodingLower hs with
  | .error _ => (⟨"Error processing response", none⟩, ["Error processing response"])
  | .ok ce =>
    let step : ByteBuf × List String :=
      if ce = some "gzip" then
        match gunzip buffer with
        | some d => (d, [])
        | none => (buffer, ["Failed to decompress gzipped response"])
      else (buffer, [])
    let responseText := utf8 step.1
    match jsonParse responseText with
    | some j => (⟨responseText, some j⟩, step.2)
    | none => (⟨responseText, none⟩, step.2)

/-! ### The interception middleware (lines 37–118)

The middleware overrides `res.write` and `res.end`.  Each override pushes
the (truthy) chunk onto the per-request `chunks` array and forwards the
identical arguments to the original function
(`originalWrite.apply(this, arguments)`), so the bytes delivered to the
client are exactly the bytes of the chunks the caller passed, unaltered. -/

/-- UTF-8 encoding of one character (the encoding `Buffer.from(string)`
applies). -/
def utf8EncodeChar (c : Char) : List Nat :=
  let n := c.toNat
  if n < 0x80 then [n]
  else if n < 0x800 then
    [0xC0 ||| (n >>> 6), 0x80 ||| (n &&& 0x3F)]
  else if n < 0x10000 then
    [0xE0 ||| (n >>> 12), 0x80 ||| ((n >>> 6) &&& 0x3F), 0x80 ||| (n &&& 0x3F)]
  else
    [0xF0 ||| (n >>> 18), 0x80 ||| ((n >>> 12) &&& 0x3F),
     0x80 ||| ((n >>> 6) &&& 0x3F), 0x80 ||| (n &&& 0x3F)]

/-- UTF-8 encoding of a string, as `Buffer.from(chunk)` performs on string
chunks (the source passes no explicit encoding, so Node uses utf8). -/
def utf8Encode (s : String) : ByteBuf := (s.data.map utf8EncodeChar).flatten

/-- The character encoding accompanying a string chunk in
`res.write(chunk, encoding)` / `res.end(chunk, encoding)`.  `utf8` is
Node's default; `latin1` (each UTF-16 code unit's low byte becomes one
byte) represents the non-default encodings (`latin1`, `hex`, `base64`, …)
under which the wire bytes differ from the utf8 bytes. -/
inductive Encoding where
  | utf8
  | latin1
deriving Repr, DecidableEq

/-- The bytes a string denotes under an encoding (what the underlying
stream sends for `write(string, encoding)`). -/
def encodeAs : Encoding → String → ByteBuf
  | .utf8, s => utf8Encode s
  | .latin1, s => s.data.map (fun c => c.toNat % 256)

/-- A value passed to `res.write` / `res.end`: a Buffer, a string together
with the encoding argument the caller passed (utf8 when omitted), or no
chunk at all (`null` / `undefined`, as in `res.end()`). -/
inductive Chunk where
  | buf (b : ByteBuf)
  | str (s : String) (enc : Encoding)
  | nullv
deriving Repr

/-- The bytes the override captures for the log buffer:
`Buffer.isBuffer(chunk) ? chunk : Buffer.from(chunk)` (lines 48 and 56).
`Buffer.from(chunk)` receives no encoding argument, so a string chunk is
always captured as its utf8 bytes, whatever encoding the caller passed. -/
def capturedBytes : Chunk → ByteBuf
  | .buf b => b
  | .str s _ => utf8Encode s
  | .nullv => []

/-- The bytes the client receives for the chunk: the overrides forward the
caller's arguments verbatim (`originalWrite.apply(this, arguments)`), so
the underlying stream decodes a string chunk with the encoding the caller
passed. -/
def deliveredBytes : Chunk → ByteBuf
  | .buf b => b
  | .str s e => encodeAs e s
  | .nullv => []

/-- Whether the chunk is free of a non-default encoding argument: a Buffer,
a missing chunk, or a string written with the default utf8. -/
def usesDefaultEncoding : Chunk → Bool
  | .str _ .utf8 => true
  | .str _ _ => false
  | _ => true

/-- JavaScript truthiness of a chunk, tested by `if (chunk)` in the
overrides: Buffers are objects and hence always truthy (even when empty),
a string is truthy iff non-empty, and a missing chunk is falsy. -/
def chunkTruthy : Chunk → Bool
  | .buf _ => true
  | .str s _ => s != ""
  | .nullv => false

/-- Embedding of lines 47–49 / 55–57: push the chunk (converted to a Buffer
via `Buffer.from` when it is a string) onto `chunks` when it is truthy. -/
def pushChunk (chunks : List ByteBuf) (c : Chunk) : List ByteBuf :=
  if chunkTruthy c then chunks ++ [capturedBytes c] else chunks

/-- The `timestamp` object of a log entry (lines 66–70). -/
structure Timestamps where
  request : String
  response : String
  duration : String
deriving Repr

/-- The `request` object of a log entry (lines 71–76).  The body is the
JSON body `express.json()` parsed upstream, `none` when absent. -/
structure ReqSnapshot where
  method : String
  path : String
  headers : Headers
  body : Option Json
deriving Repr

/-- The `response` object of a log entry (lines 77–81).  Its `body` field
is the JavaScript value `processedResponse.json || processedResponse.text`,
hence a `Json` value (the text case is a JSON string). -/
structure RespSnapshot where
  statusCode : Nat
  headers : Headers
  body : Json
deriving Repr

/-- One structured log record (lines 65–82). -/
structure LogEntry where
  timestamp : Timestamps
  request : ReqSnapshot
  response : RespSnapshot
deriving Repr

/-- Embedding of line 80, `processedResponse.json || processedResponse.text`:
the JS `||` takes the left operand when it is truthy, so a falsy parsed
value (`null`, `false`, `0`, `""`) falls through to the text. -/
def logBody (c : CapturedResponse) : Json :=
  match c.json with
  | some j => if j.truthy then j else .str c.text
  | none => .str c.text

/-- What the console block prints as the response body (lines 91–93):
`processedResponse.json ? JSON.stringify(json, null, 2) : text` —
again a truthiness test, not a presence test. -/
inductive ConsoleBody where
  | jsonPretty (j : Json)
  | plain (t : String)
deriving Repr

/-- The console body choice of lines 91–93. -/
def consoleBody (c : CapturedResponse) : ConsoleBody :=
  match c.json with
  | some j => if j.truthy then .jsonPretty j else .plain c.text
  | none => .plain c.text

/-- Embedding of line 30: `toISOString().replace(/[:.]/g, "-")` replaces
every colon and every dot with a dash. -/
def sanitizeTimestamp (s : String) : String :=
  String.mk (s.data.map (fun c => if c = ':' ∨ c = '.' then '-' else c))

/-- JavaScript's `s.substring(0, n)`: the first `n` characters. -/
def substringJs (s : String) (n : Nat) : String := String.mk (s.data.take n)

/-- Embedding of `createLogFilename` (lines 29–33), with the current ISO
timestamp and the `uuidv4()` draw passed in as oracle values:
`path.join(LOG_DIR, "logs-" + timestamp + "-" + uuid.substring(0,8) + ".log")`,
where `LOG_DIR` is `path.join(__dirname, "../logs")`, modelled as the fixed
path `"logs"`. -/
def createLogFilename (isoNow : String) (uuid : String) : String :=
  "logs/logs-" ++ sanitizeTimestamp isoNow ++ "-" ++ substringJs uuid 8 ++ ".log"

/-- The per-request context and the environment oracles of one
request-response cycle: the decode oracles of `handleResponse`, the clock
readings taken by the four `new Date()` calls the end-override performs
(`t0` at middleware entry, `t1` at line 60 for the response timestamp, `t2`
at line 69 for the logged duration, `t3` at line 106 for the console
duration, `tName` inside `createLogFilename`), `iso` rendering a reading as
`toISOString()` does, the `uuidv4()` draw, the request snapshot, and the
response status and headers as they stand when the stream completes. -/
structure Ctx where
  gunzip : ByteBuf → Option ByteBuf
  utf8 : ByteBuf → String
  jsonParse : String → Option Json
  iso : Nat → String
  uuid : String
  t0 : Nat
  t1 : Nat
  t2 : Nat
  t3 : Nat
  tName : Nat
  method : String
  reqPath : String
  reqHeaders : Headers
  reqBody : Option Json
  statusCode : Nat
  respHeaders : Headers

/-- Observable events of one request in program order: a `console.error`
diagnostic from `handleResponse`, the `fs.writeFileSync` of the log file
(line 88), the single consolidated console block (lines 95–110), and the
`originalEnd.apply(this, arguments)` call (line 113) that terminates the
client-visible response with the final chunk's bytes. -/
inductive Event where
  | consoleDiag (msg : String)
  | fileWrite (name : String) (entry : LogEntry)
  | consoleBlock (body : ConsoleBody)
  | clientEnd (bytes : ByteBuf)
deriving Repr

/-- Whether an event is the log-file write. -/
def isFileWrite : Event → Bool
  | .fileWrite _ _ => true
  | _ => false

/-- Whether an event is the consolidated console block. -/
def isConsoleBlock : Event → Bool
  | .consoleBlock _ => true
  | _ => false

/-- Whether an event is the forwarding of the final `end` to the client. -/
def isClientEnd : Event → Bool
  | .clientEnd _ => true
  | _ => false

/-- Outcome of one request run through the middleware. `delivered` lists,
per `res.write` call, the bytes forwarded unchanged to the underlying
stream; `events` the side effects of the end-override in program order;
`threw` whether the end-override escaped with an exception. -/
structure RunResult where
  delivered : List ByteBuf
  events : List Event
  threw : Bool
deriving Repr

/-- The concatenated response buffer after a run: every truthy chunk of the
writes and of the final `end` call, in arrival order (`Buffer.concat(chunks)`
of line 59). -/
def fullBuffer (writes : List Chunk) (endChunk : Chunk) : ByteBuf :=
  (pushChunk (writes.foldl pushChunk []) endChunk).flatten

/-- The `handleResponse` invocation of line 62: the decode of the full
concatenated buffer against the response headers captured at end time. -/
def captured (cx : Ctx) (writes : List Chunk) (endChunk : Chunk) :
    CapturedResponse × List String :=
  handleResponse cx.gunzip cx.utf8 cx.jsonParse
    (fullBuffer writes endChunk) cx.respHeaders

/-- The log entry object of lines 65–82, built inside the end-override from
the full buffer — hence only after the stream-completion signal.  Note the
logged duration is `t2 - t0`, computed from a fresh `new Date()` at
line 69, not from the reading `t1` that produced the response timestamp. -/
def runEntry (cx : Ctx) (writes : List Chunk) (endChunk : Chunk) : LogEntry :=
  { timestamp :=
      { request := cx.iso cx.t0
        response := cx.iso cx.t1
        duration := toString ((cx.t2 : Int) - (cx.t0 : Int)) ++ "ms" }
    request :=
      { method := cx.method, path := cx.reqPath
        headers := cx.reqHeaders, body := cx.reqBody }
    response :=
      { statusCode := cx.statusCode, headers := cx.respHeaders
        body := logBody (captured cx writes endChunk).1 } }

/-- Embedding of the logging middleware (lines 37–118) run on one request:
a sequence of `res.write(c)` calls followed by one `res.end(endChunk)`.
`writeOk` tells whether `fs.writeFileSync` succeeds; when it throws, the
exception propagates out of the overridden `end` (there is no try/catch in
it), so neither the console block nor `originalEnd` runs — the run ends
with `threw = true`. -/
def runMiddleware (cx : Ctx) (writeOk : Bool) (writes : List Chunk)
    (endChunk : Chunk) : RunResult :=
  let pr := captured cx writes endChunk
  let fname := createLogFilename (cx.iso cx.tName) cx.uuid
  { delivered := writes.map deliveredBytes
    events := pr.2.map Event.consoleDiag ++
      (if writeOk then
        [Event.fileWrite fname (runEntry cx writes endChunk),
         Event.consoleBlock (consoleBody pr.1),
         Event.clientEnd (deliveredBytes endChunk)]
      else [])
    threw := !writeOk }

/-- The log entry a file-write event carries, if any. -/
def entryOf : Event → Option LogEntry
  | .fileWrite _ en => some en
  | _ => none

/-- The log entries written to files during a run. -/
def loggedEntries (r : RunResult) : List LogEntry :=
  r.events.filterMap entryOf

/-! ### The proxy error hook (lines 159–171) -/

/-- Property lookup on a parsed JSON object. -/
def lookupField (kvs : List (String × Json)) (k : String) : Option Json :=
  (kvs.find? (fun p => p.1 == k)).map (fun p => p.2)

/-- Embedding of `req.body?.id`: property access yields the `id` member when
the parsed body is an object carrying one, and `undefined` (`none`)
otherwise — including when the body is absent, a primitive, or an array. -/
def idField (body : Option Json) : Option Json :=
  match body with
  | some (.obj kvs) => lookupField kvs "id"
  | _ => none

/-- Embedding of `req.body?.id || null` (line 167): the id when it is
present AND truthy, JavaScript `null` otherwise. -/
def errorId (body : Option Json) : Json :=
  match idField body with
  | some v => if v.truthy then v else .null
  | none => .null

/-- The JSON-RPC error envelope written on upstream failure (lines 164–169). -/
def proxyErrorBody (body : Option Json) : Json :=
  .obj [("jsonrpc", .str "2.0"),
        ("error", .obj [("code", .num (-32603)), ("message", .str "Proxy error")]),
        ("id", errorId body)]

/-- The synthetic response the error hook emits. -/
structure ErrorResponse where
  status : Nat
  contentType : String
  body : Json
deriving Repr

/-- Embedding of the `onError` hook (lines 159–171): nothing is written when
headers were already sent; otherwise a 500 with content-type
`application/json` and the JSON-RPC error envelope. -/
def onError (headersSent : Bool) (reqBody : Option Json) : Option ErrorResponse :=
  if headersSent then none
  else some { status := 500, contentType := "application/json",
              body := proxyErrorBody reqBody }

/-! ### Concrete instantiations used to evaluate the model -/

/-- A plain cycle: no compression, no parseable JSON, clock readings
0 (request), 5 (response timestamp), 6 (duration computation, one
millisecond tick later), `iso` rendering a reading as its decimal string. -/
def cxPlain : Ctx :=
  { gunzip := fun _ => none
    utf8 := fun _ => ""
    jsonParse := fun _ => none
    iso := fun n => toString n
    uuid := "abcdef01-2345"
    t0 := 0, t1 := 5, t2 := 6, t3 := 6, tName := 6
    method := "POST", reqPath := "/"
    reqHeaders := [], reqBody := none
    statusCode := 200, respHeaders := [] }

/-- A cycle whose response body decodes to the text `"false"`, which
`JSON.parse` parses to the JSON value `false` — a populated but falsy
`json` field. -/
def cxFalse : Ctx :=
  { cxPlain with
    utf8 := fun _ => "false"
    jsonParse := fun s => if s == "false" then some (Json.bool false) else none }

/-- A cycle whose response body parses to the (truthy) JSON number 7. -/
def cxSeven : Ctx :=
  { cxPlain with jsonParse := fun _ => some (Json.num 7) }

/-- A cycle where the duration clock reading coincides with the response
timestamp reading. -/
def cxSameTick : Ctx :=
  { cxPlain with t1 := 1, t2 := 1 }

/-- A gunzip oracle that decompresses the two-byte buffer `[31, 139]` to
`[104, 105]` and rejects everything else. -/
def gzSome : ByteBuf → Option ByteBuf :=
  fun b => if b == [31, 139] then some [104, 105] else none

/-- A decode oracle mapping the decompressed payload `[104, 105]` to
`"hi"` and everything else to `"raw"`. -/
def u8Hi : ByteBuf → String :=
  fun b => if b == [104, 105] then "hi" else "raw"

/-- A `JSON.parse` oracle that always fails. -/
def jpNone : String → Option Json := fun _ => none

/-- A `JSON.parse` oracle accepting exactly the text `"[]"`. -/
def jpArr : String → Option Json :=
  fun s => if s == "[]" then some (Json.arr []) else none

/-- A decode oracle returning the JSON text `"[]"`. -/
def u8Arr : ByteBuf → String := fun _ => "[]"

/-- A gunzip oracle that always fails. -/
def gzNone : ByteBuf → Option ByteBuf := fun _ => none

/-- Response headers declaring `content-encoding: GZip` (mixed case). -/
def hsGzip : Headers := [("content-encoding", HVal.hstr "GZip")]

/-! ### Helper lemmas -/

/-- Two strings with the same character data are equal. -/
theorem stringDataInj {s t : String} (h : s.data = t.data) : s = t := by
  cases s; cases t; exact congrArg String.mk h

/-- On the non-throwing path the result of `handleResponse` is exactly the
decode of the effective (possibly decompressed) buffer together with its
parse outcome. -/
theorem handleResponse_ok (gunzip : ByteBuf → Option ByteBuf)
    (utf8 : ByteBuf → String) (jsonParse : String → Option Json)
    (buffer : ByteBuf) (hs : Headers) (ce : Option String)
    (h : contentEncodingLower hs = .ok ce) :
    (handleResponse gunzip utf8 jsonParse buffer hs).1
      = ⟨utf8 (effectiveBuffer gunzip buffer ce),
         jsonParse (utf8 (effectiveBuffer gunzip buffer ce))⟩ := by
  unfold handleResponse effectiveBuffer
  rw [h]
  by_cases hce : ce = some "gzip"
  · cases hg : gunzip buffer with
    | some d =>
      simp only [hce, if_pos, hg]
      cases hp : jsonParse (utf8 d) <;> simp [hp]
    | none =>
      simp only [hce, if_pos, hg]
      cases hp : jsonParse (utf8 buffer) <;> simp [hp]
  · simp only [if_neg hce]
    cases hp : jsonParse (utf8 buffer) <;> simp [hp]

/-- A fold of `pushChunk` appends exactly the truthy chunks' bytes, in
arrival order. -/
theorem foldl_pushChunk (l : List Chunk) (acc : List ByteBuf) :
    l.foldl pushChunk acc = acc ++ (l.filter chunkTruthy).map capturedBytes := by
  induction l generalizing acc with
  | nil => simp
  | cons x xs ih =>
    rw [List.foldl_cons, ih]
    cases h : chunkTruthy x <;> simp [pushChunk, h, List.filter_cons]

/-- A falsy chunk is captured as no bytes: the missing chunk is empty and a
falsy string is the empty string, whose utf8 encoding is empty. -/
theorem capturedBytes_of_falsy (c : Chunk) (h : chunkTruthy c = false) :
    capturedBytes c = [] := by
  cases c with
  | buf b => simp [chunkTruthy] at h
  | str s e =>
    simp only [chunkTruthy, bne_eq_false_iff_eq] at h
    subst h
    rfl
  | nullv => rfl

/-- A falsy chunk also delivers no bytes: the empty string denotes no bytes
under every encoding. -/
theorem deliveredBytes_of_falsy (c : Chunk) (h : chunkTruthy c = false) :
    deliveredBytes c = [] := by
  cases c with
  | buf b => simp [chunkTruthy] at h
  | str s e =>
    simp only [chunkTruthy, bne_eq_false_iff_eq] at h
    subst h
    cases e <;> rfl
  | nullv => rfl

/-- A chunk without a non-default encoding argument is captured exactly as
it is delivered. -/
theorem capturedBytes_eq_delivered (c : Chunk)
    (h : usesDefaultEncoding c = true) : capturedBytes c = deliveredBytes c := by
  cases c with
  | buf b => rfl
  | str s e =>
    cases e with
    | utf8 => rfl
    | latin1 => simp [usesDefaultEncoding] at h
  | nullv => rfl

/-- Dropping falsy chunks does not change the concatenated captured bytes. -/
theorem flatten_filter_chunks (l : List Chunk) :
    ((l.filter chunkTruthy).map capturedBytes).flatten
      = (l.map capturedBytes).flatten := by
  induction l with
  | nil => rfl
  | cons x xs ih =>
    cases h : chunkTruthy x with
    | true => simp [List.filter_cons, h, ih]
    | false => simp [List.filter_cons, h, ih, capturedBytes_of_falsy x h]

/-- Diagnostic console messages are not log-file writes. -/
theorem filter_diag_isFileWrite (msgs : List String) :
    (msgs.map Event.consoleDiag).filter isFileWrite = [] := by
  induction msgs with
  | nil => rfl
  | cons m ms ih => simp [List.filter_cons, isFileWrite, ih]

/-- Diagnostic console messages are not consolidated console blocks. -/
theorem filter_diag_isConsoleBlock (msgs : List String) :
    (msgs.map Event.consoleDiag).filter isConsoleBlock = [] := by
  induction msgs with
  | nil => rfl
  | cons m ms ih => simp [List.filter_cons, isConsoleBlock, ih]

/-- Diagnostic console messages carry no log entry. -/
theorem filterMap_entryOf_diag (msgs : List String) :
    (msgs.map Event.consoleDiag).filterMap entryOf = [] := by
  induction msgs with
  | nil => rfl
  | cons m ms ih => simp [List.filterMap_cons, entryOf, ih]

/-- A successful run writes exactly the one entry built in the
end-override. -/
theorem loggedEntries_runMiddleware (cx : Ctx) (writes : List Chunk)
    (endChunk : Chunk) :
    loggedEntries (runMiddleware cx true writes endChunk)
      = [runEntry cx writes endChunk] := by
  unfold loggedEntries runMiddleware
  simp [List.filterMap_append, filterMap_entryOf_diag, entryOf]

/-! ### The claims -/

/-- C1, counterexample.  The claim states `handleResponse` is pure with "no
I/O, no side effects"; but on a gzip-encoded response whose buffer fails to
decompress the function performs console I/O (`console.error`, line 132) —
modelled as the diagnostics component of the result, which is non-empty
here.  (The spec itself requires this very warning one sentence earlier.) -/
theorem claim_C1_counterexample :
    (handleResponse (fun _ => none) (fun _ => "") (fun _ => none)
        [] [("content-encoding", HVal.hstr "gzip")]).2
      = ["Failed to decompress gzipped response"]
    ∧ ["Failed to decompress gzipped response"] ≠ ([] : List String) :=
  ⟨rfl, by decide⟩

/-- C1, amended.  For every input buffer, header map and environment
behaviour, `handleResponse` never propagates an exception: its result is
either exactly the fallback `{text: "Error processing response", json:
absent}` — and that happens precisely when the `content-encoding` header
holds a non-string value, the one statement in its body that can throw — or
the normal decode of the (possibly decompressed) buffer together with its
JSON-parse outcome.  The returned value is a deterministic function of the
inputs; the sole effects are the console diagnostics returned in the second
component. -/
theorem claim_C1 (gunzip : ByteBuf → Option ByteBuf) (utf8 : ByteBuf → String)
    (jsonParse : String → Option Json) (buffer : ByteBuf) (hs : Headers) :
    ((handleResponse gunzip utf8 jsonParse buffer hs).1
        = ⟨"Error processing response", none⟩
      ∧ contentEncodingLower hs = .error ())
    ∨ (∃ ce, contentEncodingLower hs = .ok ce
        ∧ (handleResponse gunzip utf8 jsonParse buffer hs).1
            = ⟨utf8 (effectiveBuffer gunzip buffer ce),
               jsonParse (utf8 (effectiveBuffer gunzip buffer ce))⟩) := by
  cases h : contentEncodingLower hs with
  | error e =>
    left
    refine ⟨?_, by cases e; rfl⟩
    unfold handleResponse
    rw [h]
  | ok ce =>
    right
    exact ⟨ce, rfl, handleResponse_ok gunzip utf8 jsonParse buffer hs ce h⟩

/-- C2.  When the response declares `content-encoding` with a string value
that lower-cases to `"gzip"`: if the buffer is valid gzip (the gunzip
oracle succeeds) the decoded text is the UTF-8 decode of the decompressed
payload; if decompression fails, the original compressed bytes are decoded
as text instead, the run does not abort, and the warning
`"Failed to decompress gzipped response"` is logged. -/
theorem claim_C2 (gunzip : ByteBuf → Option ByteBuf) (utf8 : ByteBuf → String)
    (jsonParse : String → Option Json) (buffer : ByteBuf) (hs : Headers)
    (s : String) (h : getHeader hs "content-encoding" = some (HVal.hstr s))
    (hg : toLowerJs s = "gzip") :
    (∀ d, gunzip buffer = some d →
      (handleResponse gunzip utf8 jsonParse buffer hs).1.text = utf8 d)
    ∧ (gunzip buffer = none →
      (handleResponse gunzip utf8 jsonParse buffer hs).1.text = utf8 buffer
      ∧ "Failed to decompress gzipped response"
          ∈ (handleResponse gunzip utf8 jsonParse buffer hs).2) := by
  have hce : contentEncodingLower hs = .ok (some "gzip") := by
    simp [contentEncodingLower, h, hg]
  constructor
  · intro d hd
    rw [handleResponse_ok gunzip utf8 jsonParse buffer hs (some "gzip") hce]
    simp [effectiveBuffer, hd]
  · intro hd
    constructor
    · rw [handleResponse_ok gunzip utf8 jsonParse buffer hs (some "gzip") hce]
      simp [effectiveBuffer, hd]
    · unfold handleResponse
      rw [hce]
      simp only [if_pos, hd]
      cases hp : jsonParse (utf8 buffer) <;> simp [hp]

/-- C2, witness: a mixed-case `GZip` header, a two-byte "compressed" buffer
the gunzip oracle maps to `[104, 105]`, and a decode oracle rendering those
bytes as `"hi"`. -/
theorem claim_C2_witness :
    (handleResponse gzSome u8Hi jpNone [31, 139] hsGzip).1.text = "hi" :=
  ((claim_C2 gzSome u8Hi jpNone [31, 139] hsGzip "GZip" (by decide)
      (by decide)).1 [104, 105] (by decide)).trans (by decide)

/-- C3.  On the non-throwing path (the content-encoding lookup does not
throw), with `t` the decoded text of the effective buffer: if `JSON.parse`
succeeds on `t` the result carries the parsed structure in `json` and `t`
in `text`; if it fails the result is `{text: t, json: absent}` — the text
is still the full decoded body and no error is raised. -/
theorem claim_C3 (gunzip : ByteBuf → Option ByteBuf) (utf8 : ByteBuf → String)
    (jsonParse : String → Option Json) (buffer : ByteBuf) (hs : Headers)
    (ce : Option String) (h : contentEncodingLower hs = .ok ce) :
    (∀ j, jsonParse (utf8 (effectiveBuffer gunzip buffer ce)) = some j →
      (handleResponse gunzip utf8 jsonParse buffer hs).1
        = ⟨utf8 (effectiveBuffer gunzip buffer ce), some j⟩)
    ∧ (jsonParse (utf8 (effectiveBuffer gunzip buffer ce)) = none →
      (handleResponse gunzip utf8 jsonParse buffer hs).1
        = ⟨utf8 (effectiveBuffer gunzip buffer ce), none⟩) := by
  constructor
  · intro j hj
    rw [handleResponse_ok gunzip utf8 jsonParse buffer hs ce h, hj]
  · intro hj
    rw [handleResponse_ok gunzip utf8 jsonParse buffer hs ce h, hj]

/-- C3, witness: a body decoding to the text `"[]"`, which parses to the
empty JSON array. -/
theorem claim_C3_witness :
    (handleResponse gzNone u8Arr jpArr [] []).1 = ⟨"[]", some (Json.arr [])⟩ :=
  (claim_C3 gzNone u8Arr jpArr [] [] none rfl).1 (Json.arr []) rfl

/-- C4, counterexample.  The claim states the concatenated buffer equals
the exact bytes delivered to the client for every sequence of writes; but
the overrides capture `Buffer.from(chunk)` with no encoding argument
(always utf8 for a string chunk) while forwarding the caller's arguments
verbatim, so the underlying stream decodes the string with the encoding
the caller passed.  Writing the string `"é"` with the `latin1` encoding
delivers the single byte 233 to the client while the buffer captures the
two utf8 bytes 195, 169. -/
theorem claim_C4_counterexample :
    fullBuffer [Chunk.str "é" Encoding.latin1] Chunk.nullv = [195, 169]
    ∧ ((runMiddleware cxPlain true [Chunk.str "é" Encoding.latin1]
          Chunk.nullv).delivered).flatten = [233]
    ∧ [195, 169] ≠ ([233] : ByteBuf) :=
  ⟨rfl, rfl, by decide⟩

/-- C4, amended.  For every sequence of writes followed by the final `end`
call: the per-request buffer holds the chunks' captured bytes
(`Buffer.from(chunk)`: the caller's bytes for Buffer chunks, the utf8
bytes for string chunks whatever encoding was passed) in arrival order —
exactly the truthy chunks, and the skipped falsy chunks carry no bytes, so
the aggregate is unchanged; the forwarding itself is transparent — each
`write` and the final `end` forward the caller's arguments unaltered, so
the client receives the encoding-decoded bytes unaffected by the wrapping;
and the concatenated buffer equals the concatenation of the bytes
delivered to the client, final chunk included, whenever every string chunk
was written with the default utf8 encoding (for a non-default encoding the
captured and delivered bytes diverge, see the counterexample). -/
theorem claim_C4 (cx : Ctx) (writes : List Chunk) (endChunk : Chunk) :
    (writes ++ [endChunk]).foldl pushChunk []
        = ((writes ++ [endChunk]).filter chunkTruthy).map capturedBytes
    ∧ fullBuffer writes endChunk
        = ((writes ++ [endChunk]).map capturedBytes).flatten
    ∧ (runMiddleware cx true writes endChunk).delivered
        = writes.map deliveredBytes
    ∧ Event.clientEnd (deliveredBytes endChunk)
        ∈ (runMiddleware cx true writes endChunk).events
    ∧ ((∀ c ∈ writes ++ [endChunk], usesDefaultEncoding c = true) →
        fullBuffer writes endChunk
          = ((writes ++ [endChunk]).map deliveredBytes).flatten) := by
  have hcap : fullBuffer writes endChunk
      = ((writes ++ [endChunk]).map capturedBytes).flatten := by
    calc fullBuffer writes endChunk
        = ((writes ++ [endChunk]).foldl pushChunk []).flatten := by
          simp [fullBuffer, List.foldl_append]
      _ = (((writes ++ [endChunk]).filter chunkTruthy).map capturedBytes).flatten := by
          rw [foldl_pushChunk]
          simp
      _ = ((writes ++ [endChunk]).map capturedBytes).flatten :=
          flatten_filter_chunks _
  refine ⟨by simpa using foldl_pushChunk (writes ++ [endChunk]) [], hcap, rfl,
    ?_, ?_⟩
  · simp [runMiddleware, List.mem_append]
  · intro h
    rw [hcap]
    have hmap : (writes ++ [endChunk]).map capturedBytes
        = (writes ++ [endChunk]).map deliveredBytes :=
      List.map_congr_left (fun c hc => capturedBytes_eq_delivered c (h c hc))
    rw [hmap]

/-- C4, witness: a default-utf8 string write followed by a Buffer `end`
chunk, where the buffer equals the delivered bytes. -/
theorem claim_C4_witness :
    fullBuffer [Chunk.str "hi" Encoding.utf8] (Chunk.buf [10])
      = ([Chunk.str "hi" Encoding.utf8, Chunk.buf [10]].map deliveredBytes).flatten :=
  (claim_C4 cxPlain [Chunk.str "hi" Encoding.utf8] (Chunk.buf [10])).2.2.2.2
    (by decide)

/-- C5.  The claim says the intercepted `end` must guarantee the original
bytes reach the client regardless of whether logging succeeds; the code
instead performs the log-file write (`fs.writeFileSync`, line 88) before
`originalEnd` (line 113), with no try/catch.  Evaluating the end-override
on a run whose file write throws: the exception escapes the override
(`threw = true`) and no event happens — in particular `originalEnd` is
never invoked, so the client response is never terminated. -/
theorem claim_C5_bug :
    (runMiddleware cxPlain false [Chunk.buf [1, 2]] (Chunk.buf [3])).threw = true
    ∧ (runMiddleware cxPlain false [Chunk.buf [1, 2]] (Chunk.buf [3])).events
        = [] :=
  ⟨rfl, rfl⟩

/-- C6.  Every completed cycle (a run whose log write succeeds; when it
throws, the cycle does not complete — see C5) produces exactly one
log-file write, exactly one consolidated console block, and exactly one
log entry, whatever the chunking, encoding or well-formedness of the
response; and that entry is built from the decode of the full concatenated
buffer — final chunk included — so only after the stream-completion
signal. -/
theorem claim_C6 (cx : Ctx) (writes : List Chunk) (endChunk : Chunk) :
    ((runMiddleware cx true writes endChunk).events.filter isFileWrite).length = 1
    ∧ ((runMiddleware cx true writes endChunk).events.filter isConsoleBlock).length = 1
    ∧ loggedEntries (runMiddleware cx true writes endChunk)
        = [runEntry cx writes endChunk]
    ∧ (runEntry cx writes endChunk).response.body
        = logBody (handleResponse cx.gunzip cx.utf8 cx.jsonParse
            (fullBuffer writes endChunk) cx.respHeaders).1
    ∧ (runMiddleware cx true writes endChunk).threw = false := by
  refine ⟨?_, ?_, loggedEntries_runMiddleware cx writes endChunk, rfl, rfl⟩
  · simp [runMiddleware, List.filter_append, filter_diag_isFileWrite,
      List.filter_cons, isFileWrite]
  · simp [runMiddleware, List.filter_append, filter_diag_isConsoleBlock,
      List.filter_cons, isConsoleBlock]

/-- C7, counterexample.  The claim says the logged body is the parsed JSON
whenever the `json` field is present; but line 80 computes
`processedResponse.json || processedResponse.text`, a JavaScript
truthiness test.  On a response whose text is `"false"` the parse succeeds
(`json` is present, holding the JSON value `false`), yet the logged body —
and the console body — is the text string, not the parsed structure. -/
theorem claim_C7_counterexample :
    (captured cxFalse [] (Chunk.str "x" Encoding.utf8)).1.json = some (Json.bool false)
    ∧ (loggedEntries (runMiddleware cxFalse true [] (Chunk.str "x" Encoding.utf8))).map
        (fun en => en.response.body) = [Json.str "false"]
    ∧ consoleBody (captured cxFalse [] (Chunk.str "x" Encoding.utf8)).1
        = ConsoleBody.plain "false"
    ∧ Json.str "false" ≠ Json.bool false :=
  ⟨rfl, rfl, rfl, fun h => Json.noConfusion h⟩

/-- C7, amended.  The body of the one logged entry is
`processedResponse.json || processedResponse.text`: the parsed JSON
whenever the `json` field is present AND truthy; the decoded text whenever
`json` is absent OR holds a falsy value (`null`, `false`, `0`, `""`).  The
console body output follows the same truthiness rule (lines 91–93). -/
theorem claim_C7 (cx : Ctx) (writes : List Chunk) (endChunk : Chunk) :
    (loggedEntries (runMiddleware cx true writes endChunk)).map
        (fun en => en.response.body) = [logBody (captured cx writes endChunk).1]
    ∧ (∀ j, (captured cx writes endChunk).1.json = some j → j.truthy = true →
        logBody (captured cx writes endChunk).1 = j
        ∧ consoleBody (captured cx writes endChunk).1 = ConsoleBody.jsonPretty j)
    ∧ (∀ j, (captured cx writes endChunk).1.json = some j → j.truthy = false →
        logBody (captured cx writes endChunk).1
            = Json.str (captured cx writes endChunk).1.text
        ∧ consoleBody (captured cx writes endChunk).1
            = ConsoleBody.plain (captured cx writes endChunk).1.text)
    ∧ ((captured cx writes endChunk).1.json = none →
        logBody (captured cx writes endChunk).1
            = Json.str (captured cx writes endChunk).1.text
        ∧ consoleBody (captured cx writes endChunk).1
            = ConsoleBody.plain (captured cx writes endChunk).1.text) := by
  refine ⟨by simp [loggedEntries_runMiddleware, runEntry], ?_, ?_, ?_⟩
  · intro j hj ht
    constructor <;> simp [logBody, consoleBody, hj, ht]
  · intro j hj ht
    constructor <;> simp [logBody, consoleBody, hj, ht]
  · intro hj
    constructor <;> simp [logBody, consoleBody, hj]

/-- C7, witness: a body parsing to the truthy JSON number 7 is logged as
the parsed structure. -/
theorem claim_C7_witness :
    logBody (captured cxSeven [] Chunk.nullv).1 = Json.num 7 :=
  ((claim_C7 cxSeven [] Chunk.nullv).2.1 (Json.num 7) rfl rfl).1

/-- C8, counterexample.  The claim says the recorded duration equals the
response timestamp minus the request timestamp.  The code takes the
response timestamp from one `new Date()` (line 60) but computes the
duration from a fresh `new Date()` (line 69).  On a run whose clock reads
0 at request time, 5 at the response-timestamp read, and 6 at the duration
read, the logged record says request "0", response "5" and duration "6ms";
the claim mandates "5ms". -/
theorem claim_C8_counterexample :
    (loggedEntries (runMiddleware cxPlain true [] Chunk.nullv)).map
        (fun en => (en.timestamp.request, en.timestamp.response,
          en.timestamp.duration))
      = [("0", "5", "6ms")]
    ∧ ("6ms" : String) ≠ "5ms" :=
  ⟨rfl, by decide⟩

/-- C8, amended.  The recorded duration is `t2 - t0` where `t0` is the
request-time clock reading and `t2` the fresh reading taken at line 69,
at-or-after the reading `t1` that produced the response timestamp.  With a
monotonic clock it is non-negative, and it equals the response timestamp
minus the request timestamp exactly when no clock tick occurs between the
two reads (`t2 = t1`). -/
theorem claim_C8 (cx : Ctx) (writes : List Chunk) (endChunk : Chunk)
    (h0 : cx.t0 ≤ cx.t1) (h1 : cx.t1 ≤ cx.t2) :
    (loggedEntries (runMiddleware cx true writes endChunk)).map
        (fun en => en.timestamp.duration)
      = [toString ((cx.t2 : Int) - (cx.t0 : Int)) ++ "ms"]
    ∧ 0 ≤ (cx.t2 : Int) - (cx.t0 : Int)
    ∧ (cx.t2 = cx.t1 →
        (loggedEntries (runMiddleware cx true writes endChunk)).map
            (fun en => en.timestamp.duration)
          = [toString ((cx.t1 : Int) - (cx.t0 : Int)) ++ "ms"]) := by
  refine ⟨by simp [loggedEntries_runMiddleware, runEntry], ?_, ?_⟩
  · have h2 : (cx.t0 : Int) ≤ (cx.t2 : Int) := Int.ofNat_le.mpr (h0.trans h1)
    omega
  · intro h
    simp [loggedEntries_runMiddleware, runEntry, h]

/-- C8, witness: a run whose duration read coincides with the response
timestamp read. -/
theorem claim_C8_witness :
    (loggedEntries (runMiddleware cxSameTick true [] Chunk.nullv)).map
        (fun en => en.timestamp.duration)
      = [toString ((cxSameTick.t2 : Int) - (cxSameTick.t0 : Int)) ++ "ms"]
    ∧ 0 ≤ (cxSameTick.t2 : Int) - (cxSameTick.t0 : Int) :=
  ⟨(claim_C8 cxSameTick [] Chunk.nullv (by decide) (by decide)).1,
   (claim_C8 cxSameTick [] Chunk.nullv (by decide) (by decide)).2.1⟩

/-- C9, counterexample.  The claim says the generated names are distinct
for every pair of distinct requests.  The unique part of the name is the
first 8 characters of a random `uuidv4()` draw: two requests completing in
the same millisecond whose draws agree on those 8 characters — distinct
draws, distinct requests — yield the identical filename.  Uniqueness is
probabilistic, not guaranteed. -/
theorem claim_C9_counterexample :
    createLogFilename "2025-01-02T03:04:05.678Z" "aaaabbbb-cccc-4111-8222-333344445555"
      = createLogFilename "2025-01-02T03:04:05.678Z" "aaaabbbb-dddd-4111-8222-333344445555"
    ∧ ("aaaabbbb-cccc-4111-8222-333344445555" : String)
        ≠ "aaaabbbb-dddd-4111-8222-333344445555" :=
  ⟨by decide, by decide⟩

/-- C9, amended.  The name is
`logs/logs-<timestamp with every colon and dot replaced by a dash>-<first
8 characters of the uuid draw>.log`; the sanitized timestamp contains no
colon and no dot, the suffix has exactly 8 characters whenever the uuid
draw has at least 8, and two names generated in the same millisecond (same
timestamp) are equal exactly when the two 8-character prefixes are equal —
distinctness holds if and only if the prefixes differ. -/
theorem claim_C9 (ts u1 u2 : String) :
    (∀ ch ∈ (sanitizeTimestamp ts).data, ch ≠ ':' ∧ ch ≠ '.')
    ∧ (8 ≤ u1.data.length → (substringJs u1 8).data.length = 8)
    ∧ (createLogFilename ts u1 = createLogFilename ts u2
        ↔ substringJs u1 8 = substringJs u2 8) := by
  refine ⟨?_, ?_, ?_, ?_⟩
  · intro ch hch
    simp only [sanitizeTimestamp, List.mem_map] at hch
    obtain ⟨c, hc, rfl⟩ := hch
    by_cases hcc : c = ':' ∨ c = '.'
    · simp only [hcc, if_pos]
      exact ⟨by decide, by decide⟩
    · simp only [hcc, if_neg, if_false]
      exact ⟨fun h => hcc (Or.inl h), fun h => hcc (Or.inr h)⟩
  · intro h
    simp only [substringJs, List.length_take]
    omega
  · intro h
    have hd := congrArg String.data h
    simp only [createLogFilename, String.data_append, List.append_assoc] at hd
    have h1 := List.append_cancel_left hd
    have h2 := List.append_cancel_left h1
    have h3 := List.append_cancel_left h2
    exact stringDataInj (List.append_cancel_right h3)
  · intro h
    simp [createLogFilename, h]

/-- C9, witness: an 8-character suffix from a 36-character draw, and a
same-millisecond collision forced through the iff. -/
theorem claim_C9_witness :
    (substringJs "aaaabbbb-cccc-4111-8222-333344445555" 8).data.length = 8
    ∧ createLogFilename "2025-01-02T03:04:05.678Z" "aaaabbbb-cccc"
        = createLogFilename "2025-01-02T03:04:05.678Z" "aaaabbbb-dddd" :=
  ⟨(claim_C9 "2025-01-02T03:04:05.678Z" "aaaabbbb-cccc-4111-8222-333344445555"
      "x").2.1 (by decide),
   (claim_C9 "2025-01-02T03:04:05.678Z" "aaaabbbb-cccc" "aaaabbbb-dddd").2.2.mpr
     (by decide)⟩

/-- C10, counterexample.  The claim says the error body's `id` is null
exactly when the request carried no id.  Line 167 computes
`req.body?.id || null`, a truthiness test: a request whose body carries
the perfectly valid JSON-RPC id `0` gets `id: null` in the error body even
though an id was present. -/
theorem claim_C10_counterexample :
    idField (some (Json.obj [("id", Json.num 0)])) = some (Json.num 0)
    ∧ onError false (some (Json.obj [("id", Json.num 0)]))
        = some { status := 500, contentType := "application/json",
                 body := Json.obj [("jsonrpc", Json.str "2.0"),
                   ("error", Json.obj [("code", Json.num (-32603)),
                                       ("message", Json.str "Proxy error")]),
                   ("id", Json.null)] }
    ∧ some (Json.num 0) ≠ (none : Option Json) :=
  ⟨rfl, rfl, fun h => Option.noConfusion h⟩

/-- C10, amended.  When forwarding fails and headers were already sent,
nothing is emitted.  When headers were not sent, the client receives
status 500, content-type `application/json`, and the body
`{jsonrpc: "2.0", error: {code: -32603, message: "Proxy error"}, id: …}`
where `id` is the request body's id when it is present AND truthy, and
null when the id is absent — or present but falsy (`null`, `false`, `0`,
`""`). -/
theorem claim_C10 (headersSent : Bool) (b : Option Json) :
    (headersSent = true → onError headersSent b = none)
    ∧ (headersSent = false →
        onError headersSent b
          = some { status := 500, contentType := "application/json",
                   body := Json.obj [("jsonrpc", Json.str "2.0"),
                     ("error", Json.obj [("code", Json.num (-32603)),
                                         ("message", Json.str "Proxy error")]),
                     ("id", errorId b)] })
    ∧ (∀ v, idField b = some v → v.truthy = true → errorId b = v)
    ∧ (∀ v, idField b = some v → v.truthy = false → errorId b = Json.null)
    ∧ (idField b = none → errorId b = Json.null) := by
  refine ⟨?_, ?_, ?_, ?_, ?_⟩
  · intro h
    simp [onError, h]
  · intro h
    simp [onError, h, proxyErrorBody]
  · intro v hv ht
    simp [errorId, hv, ht]
  · intro v hv ht
    simp [errorId, hv, ht]
  · intro h
    simp [errorId, h]

/-- C10, witness: a request carrying the (truthy) string id `"abc"` is
echoed back in the error body. -/
theorem claim_C10_witness :
    errorId (some (Json.obj [("id", Json.str "abc")])) = Json.str "abc" :=
  (claim_C10 false (some (Json.obj [("id", Json.str "abc")]))).2.2.1
    (Json.str "abc") rfl rfl

end Proxy
